import Mathlib

/-!
Verification of the ownership-holder / conversion-resolution core described by
the specification of `example/example8.cpp` (pybind11 example 8: custom
reference counting and implicit C++-side conversions).

The repository source under `src/` contains only the example translation unit
(class declarations with their conversion operators, and the `init_ex8`
registration calls).  The engine itself (Holder, IdentityRegistry,
ConversionGraph, ConversionResolver, CallBinder) lives outside `src/`, so those
components are modelled from the specification; the concrete conversion
operators, the class hierarchy and the list of registered edges are taken
directly from `example8.cpp`.
-/

/-- The native / host types appearing in `example8.cpp`:  the classes
`Object`, `MyObject1..3`, `Ex8_A/B/C`, plus the primitive marshalled types
`double`, `std::string` and `py::int_`. -/
inductive CType where
  | Object
  | MyObject1
  | MyObject2
  | MyObject3
  | Ex8_A
  | Ex8_B
  | Ex8_C
  | double
  | string
  | py_int
  deriving DecidableEq, Repr

/-- Modelled from the spec: kind of a conversion edge — `Upcast` edges are
generated from registered inheritance relations, `Declared` edges are
explicitly registered value-producing conversions. -/
inductive EdgeKind where
  | Upcast
  | Declared
  deriving DecidableEq, Repr

/-- Modelled from the spec: priority tiers — Upcast edges have priority P0 = 0,
Declared edges have priority P1 = 1; lower is preferred. -/
def EdgeKind.priority : EdgeKind → Nat
  | .Upcast => 0
  | .Declared => 1

/-- Modelled from the spec: a directed, typed conversion edge
(sourceType, targetType, kind). -/
structure ConversionEdge where
  source : CType
  target : CType
  kind : EdgeKind
  deriving DecidableEq, Repr

/-- Modelled from the spec: a ConversionGraph is the registry of conversion
edges, kept in registration order. -/
structure ConversionGraph where
  edges : List ConversionEdge
  deriving DecidableEq, Repr

/-- Modelled from the spec: `registerInheritance(derived, base)` inserts an
Upcast edge with priority P0. -/
def registerInheritance (g : ConversionGraph) (derived base : CType) : ConversionGraph :=
  { edges := g.edges ++ [⟨derived, base, .Upcast⟩] }

/-- Modelled from the spec: `registerConversion(source, target)` inserts a
Declared edge with priority P1. -/
def registerConversion (g : ConversionGraph) (source target : CType) : ConversionGraph :=
  { edges := g.edges ++ [⟨source, target, .Declared⟩] }

/-- Modelled from the spec: the outgoing edges of a source type, ordered by
priority tier (all Upcast edges before any Declared edge), each tier in
registration order. -/
def outgoing (g : ConversionGraph) (src : CType) : List ConversionEdge :=
  g.edges.filter (fun e => e.source == src && e.kind == EdgeKind.Upcast) ++
    g.edges.filter (fun e => e.source == src && e.kind == EdgeKind.Declared)

/-- Modelled from the spec: the result of conversion resolution — either the
identity (exact runtime-type match) or travel along a single registered edge. -/
inductive ConversionPlan where
  | identity
  | viaEdge (e : ConversionEdge)
  deriving DecidableEq, Repr

/-- Modelled from the spec: cost of a plan — identity costs 0, an edge carries
its kind's priority as cost. -/
def ConversionPlan.cost : ConversionPlan → Nat
  | .identity => 0
  | .viaEdge e => e.kind.priority

/-- Modelled from the spec: `ConversionResolver.resolve` at the type level.
If the runtime type equals the required type, return identity; else walk the
outgoing edges of the runtime type in priority order and return the first
whose target is the required type; else `none` (NoMatch).  A single edge
traversal only — no multi-hop chaining. -/
def resolve (g : ConversionGraph) (runtimeType requiredType : CType) :
    Option ConversionPlan :=
  if runtimeType = requiredType then
    some .identity
  else
    ((outgoing g runtimeType).find? (fun e => e.target == requiredType)).map .viaEdge

/-- The conversion graph produced by the registrations in `init_ex8`
(`example8.cpp`), in source order: the class bases
(`MyObject1 : Object`, `Ex8_B : Ex8_A`, `Ex8_C : Ex8_B`) yield Upcast edges and
the `implicitly_convertible` / `implicitly_cpp_convertible` calls yield
Declared edges. -/
def ex8Graph : ConversionGraph :=
  let g := ConversionGraph.mk []
  let g := registerInheritance g .MyObject1 .Object
  let g := registerConversion g .py_int .MyObject1
  let g := registerConversion g .MyObject2 .double
  let g := registerConversion g .MyObject3 .MyObject2
  let g := registerInheritance g .Ex8_B .Ex8_A
  let g := registerInheritance g .Ex8_C .Ex8_B
  let g := registerConversion g .Ex8_A .double
  registerConversion g .Ex8_C .string

/-- The direct base class registered for each class in `init_ex8`:
`MyObject1`'s base is `Object`, `Ex8_B`'s is `Ex8_A`, `Ex8_C`'s is `Ex8_B`;
the other classes are registered without a base. -/
def directBase : CType → Option CType
  | .MyObject1 => some .Object
  | .Ex8_B => some .Ex8_A
  | .Ex8_C => some .Ex8_B
  | _ => none

/-- Reflexive-transitive subclass check over `directBase` (the registered
inheritance relation of `example8.cpp`; chains have length at most 2). -/
def isSubclassOf (t base : CType) : Bool :=
  t == base ||
    (match directBase t with
     | some b => b == base || (match directBase b with
        | some b2 => b2 == base
        | none => false)
     | none => false)

/-- Runtime values crossing the boundary in `example8.cpp`: instances of the
example classes (each `MyObjectN` stores an `int value`; the `Ex8` classes are
stateless, their identity is their most-derived runtime type), plus marshalled
`double`, `std::string` and python-int values. -/
inductive Value where
  | myObject1 (value : Int)
  | myObject2 (value : Int)
  | myObject3 (value : Int)
  | ex8A
  | ex8B
  | ex8C
  | dbl (d : ℝ)
  | str (s : String)
  | pyInt (n : Int)

/-- The most-derived runtime type of a value. -/
def runtimeTypeOf : Value → CType
  | .myObject1 _ => .MyObject1
  | .myObject2 _ => .MyObject2
  | .myObject3 _ => .MyObject3
  | .ex8A => .Ex8_A
  | .ex8B => .Ex8_B
  | .ex8C => .Ex8_C
  | .dbl _ => .double
  | .str _ => .string
  | .pyInt _ => .py_int

/-- `MyObject2::operator double()` (example8.cpp line 51): returns
`std::sqrt(value)`. -/
noncomputable def MyObject2.toDouble (value : Int) : ℝ :=
  Real.sqrt value

/-- `MyObject3::operator MyObject2()` (example8.cpp line 81): returns
`MyObject2(4*value)`. -/
def MyObject3.toMyObject2 (value : Int) : Value :=
  .myObject2 (4 * value)

/-- The virtual `operator double()` of the `Ex8` hierarchy:
`Ex8_A::operator double` returns `42.0` (line 94), inherited unchanged by
`Ex8_B`; `Ex8_C` overrides it to return `3.141592` (line 99).  Dispatch is on
the value's most-derived runtime type. -/
noncomputable def ex8VirtualDouble : Value → ℝ
  | .ex8C => 3.141592
  | _ => 42.0

/-- `Ex8_C::operator std::string()` (example8.cpp line 100): returns `"Pi"`. -/
def Ex8_C.toStdString : String := "Pi"

/-- Applying a single conversion edge to a value.  Upcast edges reinterpret the
same object (no value transformation, runtime type preserved); Declared edges
run the conversion operator from `example8.cpp`, with the `Ex8_A → double`
edge dispatching virtually on the most-derived runtime type.  `none` when the
edge does not apply to the value. -/
noncomputable def applyConversion (e : ConversionEdge) (v : Value) : Option Value :=
  match e.kind with
  | .Upcast =>
      if isSubclassOf (runtimeTypeOf v) e.source && isSubclassOf e.source e.target then
        some v
      else none
  | .Declared =>
      match e.source, e.target, v with
      | .MyObject2, .double, .myObject2 n => some (.dbl (MyObject2.toDouble n))
      | .MyObject3, .MyObject2, .myObject3 n => some (MyObject3.toMyObject2 n)
      | .Ex8_A, .double, v =>
          if isSubclassOf (runtimeTypeOf v) .Ex8_A then
            some (.dbl (ex8VirtualDouble v))
          else none
      | .Ex8_C, .string, v =>
          if runtimeTypeOf v == .Ex8_C then some (.str Ex8_C.toStdString)
          else none
      | _, _, _ => none

/-- Executing a conversion plan on a value: identity performs no value
transformation; an edge plan applies the edge's conversion. -/
noncomputable def applyPlan : ConversionPlan → Value → Option Value
  | .identity, v => some v
  | .viaEdge e, v => applyConversion e v

/-- Modelled from the spec: full resolution of a value against a required
type — resolve at the type level, then execute the plan. -/
noncomputable def convert (g : ConversionGraph) (v : Value) (requiredType : CType) :
    Option Value :=
  (resolve g (runtimeTypeOf v) requiredType).bind (fun p => applyPlan p v)

/-- Modelled from the spec: the three ownership strategies of the Holder
abstraction (`PYBIND11_DECLARE_HOLDER_TYPE(T, ref<T>)` is the Intrusive
strategy, `PYBIND11_DECLARE_HOLDER_TYPE(T, std::shared_ptr<T>)` the Shared
strategy; a raw pointer is Unmanaged). -/
inductive HolderStrategy where
  | Intrusive
  | Shared
  | Unmanaged
  deriving DecidableEq, Repr

/-- Modelled from the spec: observable state of a Holder over one native
object — the reference count (embedded in the object for Intrusive, in the
external control block for Shared) and how many times the native object's
destructor has run. -/
structure HolderState where
  count : Nat
  destructions : Nat
  deriving DecidableEq, Repr

/-- Modelled from the spec: initial state — object alive, not yet acquired. -/
def HolderState.init : HolderState := ⟨0, 0⟩

/-- Modelled from the spec: `acquire` increments the counter for Intrusive and
Shared; it is a no-op for Unmanaged. -/
def acquire (s : HolderStrategy) (h : HolderState) : HolderState :=
  match s with
  | .Unmanaged => h
  | _ => { h with count := h.count + 1 }

/-- Modelled from the spec: `release` decrements the counter for Intrusive and
Shared and, as a single test-and-act, runs the native object's destructor when
the count reaches zero; it is a no-op for Unmanaged (the Holder never destroys
the object). -/
def release (s : HolderStrategy) (h : HolderState) : HolderState :=
  match s with
  | .Unmanaged => h
  | _ =>
    if h.count = 1 then ⟨0, h.destructions + 1⟩
    else { h with count := h.count - 1 }

/-- `n` successive acquisitions. -/
def acquireN (s : HolderStrategy) : Nat → HolderState → HolderState
  | 0, h => h
  | n + 1, h => acquireN s n (acquire s h)

/-- `n` successive releases. -/
def releaseN (s : HolderStrategy) : Nat → HolderState → HolderState
  | 0, h => h
  | n + 1, h => releaseN s n (release s h)

/-- Modelled from the spec: observable state of the IdentityRegistry — the
address-to-proxy map (association list, most recent first), each live proxy's
Holder count, the next fresh proxy identity, and how many times
`constructProxy` has been invoked. -/
structure RegistryState where
  table : List (Nat × Nat)
  holderCount : List (Nat × Nat)
  nextId : Nat
  constructions : Nat
  deriving DecidableEq, Repr

/-- Update the first entry for `k` in an association list. -/
def bumpAssoc (k : Nat) : List (Nat × Nat) → List (Nat × Nat)
  | [] => []
  | (k', v) :: rest =>
      if k' = k then (k', v + 1) :: rest else (k', v) :: bumpAssoc k rest

/-- Modelled from the spec: `IdentityRegistry.lookupOrInsert(address,
constructProxy)`.  On a first sighting of an address it invokes
`constructProxy` (recording the fresh proxy with Holder count 1) and records
the mapping; on a subsequent sighting of the same address while the proxy is
live it returns the previously recorded proxy and increments its Holder,
without invoking `constructProxy` again.  Returns the proxy identity together
with the new registry state. -/
def lookupOrInsert (st : RegistryState) (addr : Nat) : RegistryState × Nat :=
  match st.table.lookup addr with
  | some pid =>
      ({ st with holderCount := bumpAssoc pid st.holderCount }, pid)
  | none =>
      let pid := st.nextId
      ({ table := (addr, pid) :: st.table,
         holderCount := (pid, 1) :: st.holderCount,
         nextId := pid + 1,
         constructions := st.constructions + 1 }, pid)

/-- Modelled from the spec: a candidate function signature is its ordered list
of declared parameter types. -/
structure Signature where
  params : List CType
  deriving DecidableEq, Repr

/-- Modelled from the spec: per-candidate resolution — resolve every argument
against the corresponding parameter type; `none` (the candidate is not viable)
as soon as any position is a NoMatch or the arities differ. -/
def resolveAll (g : ConversionGraph) : List CType → List Value → Option (List ConversionPlan)
  | [], [] => some []
  | p :: ps, a :: args =>
      match resolve g (runtimeTypeOf a) p, resolveAll g ps args with
      | some plan, some rest => some (plan :: rest)
      | _, _ => none
  | _, _ => none

/-- A candidate is viable when every parameter position resolves. -/
def viable (g : ConversionGraph) (sig : Signature) (args : List Value) : Bool :=
  (resolveAll g sig.params args).isSome

/-- Modelled from the spec: result of `CallBinder.bind` — either a bound call
(the selected signature with one conversion plan per argument) or a
`BindError` listing the attempted signatures. -/
inductive BindResult where
  | bound (sig : Signature) (plans : List ConversionPlan)
  | bindError (attempted : List Signature)
  deriving DecidableEq, Repr

/-- Walk the candidates in declaration order and stop at the first viable
one. -/
def bindAux (g : ConversionGraph) (args : List Value) :
    List Signature → Option (Signature × List ConversionPlan)
  | [] => none
  | c :: cs =>
      match resolveAll g c.params args with
      | some plans => some (c, plans)
      | none => bindAux g args cs

/-- Modelled from the spec: `CallBinder.bind(candidates, args)` — return the
first viable candidate in declaration order; if no candidate is viable, fail
with a `BindError` listing the attempted signatures. -/
def CallBinder.bind (g : ConversionGraph) (candidates : List Signature) (args : List Value) :
    BindResult :=
  match bindAux g args candidates with
  | some (sig, plans) => .bound sig plans
  | none => .bindError candidates

/-! ### Helper lemmas -/

lemma acquire_counted (s : HolderStrategy) (hs : s ≠ .Unmanaged) (h : HolderState) :
    acquire s h = ⟨h.count + 1, h.destructions⟩ := by
  cases s with
  | Unmanaged => exact absurd rfl hs
  | Intrusive => rfl
  | Shared => rfl

lemma release_counted (s : HolderStrategy) (hs : s ≠ .Unmanaged) (c d : Nat) :
    release s ⟨c, d⟩ = if c = 1 then ⟨0, d + 1⟩ else ⟨c - 1, d⟩ := by
  cases s with
  | Unmanaged => exact absurd rfl hs
  | Intrusive => rfl
  | Shared => rfl

lemma acquireN_counted (s : HolderStrategy) (hs : s ≠ .Unmanaged) :
    ∀ (n c d : Nat), acquireN s n ⟨c, d⟩ = ⟨c + n, d⟩ := by
  intro n
  induction n with
  | zero => intro c d; rfl
  | succ n ih =>
      intro c d
      rw [acquireN, acquire_counted s hs]
      show acquireN s n ⟨c + 1, d⟩ = _
      rw [ih]
      congr 1
      omega

lemma releaseN_while_positive (s : HolderStrategy) (hs : s ≠ .Unmanaged) :
    ∀ (k c d : Nat), k < c → releaseN s k ⟨c, d⟩ = ⟨c - k, d⟩ := by
  intro k
  induction k with
  | zero => intro c d _; rfl
  | succ k ih =>
      intro c d hk
      rw [releaseN, release_counted s hs]
      show releaseN s k (if c = 1 then _ else _) = _
      rw [if_neg (by omega)]
      show releaseN s k ⟨c - 1, d⟩ = _
      rw [ih (c - 1) d (by omega)]
      congr 1
      omega

lemma releaseN_full (s : HolderStrategy) (hs : s ≠ .Unmanaged) :
    ∀ (c d : Nat), 0 < c → releaseN s c ⟨c, d⟩ = ⟨0, d + 1⟩ := by
  intro c
  induction c with
  | zero => intro d h; exact absurd h (lt_irrefl 0)
  | succ c ih =>
      intro d _
      rw [releaseN, release_counted s hs]
      by_cases hc : c = 0
      · subst hc
        rw [if_pos rfl]
        rfl
      · rw [if_neg (by omega)]
        show releaseN s c ⟨c + 1 - 1, d⟩ = _
        simpa using ih d (by omega)

lemma acquireN_unmanaged (n : Nat) (h : HolderState) :
    acquireN .Unmanaged n h = h := by
  induction n with
  | zero => rfl
  | succ n ih => rw [acquireN]; exact ih

lemma releaseN_unmanaged (n : Nat) (h : HolderState) :
    releaseN .Unmanaged n h = h := by
  induction n with
  | zero => rfl
  | succ n ih => rw [releaseN]; exact ih

/-! ### C1 — Holder destroys exactly once -/

/-- C1: for every object held under the Intrusive or Shared strategy, acquiring
`N` times and then releasing `N` times (operations serialized) runs the native
object's destructor exactly once, precisely at the release that brings the
count to zero — never zero times, never more than once; under the Unmanaged
strategy the Holder never runs the destructor. -/
theorem holder_destructor_exactly_once (s : HolderStrategy) (hs : s ≠ .Unmanaged)
    (N : Nat) (hN : 0 < N) :
    (releaseN s N (acquireN s N HolderState.init)).destructions = 1 ∧
    (releaseN s N (acquireN s N HolderState.init)).count = 0 ∧
    (∀ k, k < N → (releaseN s k (acquireN s N HolderState.init)).destructions = 0) ∧
    (∀ M K : Nat,
      (releaseN .Unmanaged K (acquireN .Unmanaged M HolderState.init)).destructions = 0) := by
  have hacq : acquireN s N HolderState.init = ⟨N, 0⟩ := by
    simpa using acquireN_counted s hs N 0 0
  refine ⟨?_, ?_, ?_, ?_⟩
  · rw [hacq, releaseN_full s hs N 0 hN]
  · rw [hacq, releaseN_full s hs N 0 hN]
  · intro k hk
    rw [hacq, releaseN_while_positive s hs k N 0 hk]
  · intro M K
    rw [acquireN_unmanaged, releaseN_unmanaged]
    rfl

/-- Witness for C1 at strategy Intrusive and N = 3. -/
theorem holder_destructor_exactly_once_witness :
    (HolderStrategy.Intrusive ≠ .Unmanaged ∧ 0 < 3) ∧
    (releaseN .Intrusive 3 (acquireN .Intrusive 3 HolderState.init)).destructions = 1 ∧
    (releaseN .Intrusive 3 (acquireN .Intrusive 3 HolderState.init)).count = 0 ∧
    (releaseN .Intrusive 2 (acquireN .Intrusive 3 HolderState.init)).destructions = 0 :=
  ⟨⟨by decide, by decide⟩,
    (holder_destructor_exactly_once .Intrusive (by decide) 3 (by decide)).1,
    (holder_destructor_exactly_once .Intrusive (by decide) 3 (by decide)).2.1,
    (holder_destructor_exactly_once .Intrusive (by decide) 3 (by decide)).2.2.1 2 (by decide)⟩

/-! ### C2 — IdentityRegistry deduplicates by address -/

/-- C2: for every registry state and every address not yet registered, a first
`lookupOrInsert` constructs the proxy (one `constructProxy` invocation, Holder
count 1) and a second lookup of the same address while that proxy is live
returns the identical proxy, performs no further construction, and leaves the
Holder count at 2 (two acquisitions). -/
theorem identity_registry_second_sighting (st : RegistryState) (addr : Nat)
    (hfresh : st.table.lookup addr = none) :
    (lookupOrInsert (lookupOrInsert st addr).1 addr).2 = (lookupOrInsert st addr).2 ∧
    (lookupOrInsert st addr).1.constructions = st.constructions + 1 ∧
    (lookupOrInsert (lookupOrInsert st addr).1 addr).1.constructions =
      st.constructions + 1 ∧
    (lookupOrInsert st addr).1.holderCount.lookup (lookupOrInsert st addr).2 = some 1 ∧
    (lookupOrInsert (lookupOrInsert st addr).1 addr).1.holderCount.lookup
      (lookupOrInsert (lookupOrInsert st addr).1 addr).2 = some 2 := by
  simp only [lookupOrInsert, hfresh]
  simp [List.lookup, bumpAssoc]

/-- Witness for C2: the empty registry and address 7. -/
theorem identity_registry_second_sighting_witness :
    (RegistryState.mk [] [] 0 0).table.lookup 7 = none ∧
    (lookupOrInsert (lookupOrInsert ⟨[], [], 0, 0⟩ 7).1 7).2 =
      (lookupOrInsert ⟨[], [], 0, 0⟩ 7).2 ∧
    (lookupOrInsert (lookupOrInsert ⟨[], [], 0, 0⟩ 7).1 7).1.constructions = 1 ∧
    (lookupOrInsert (lookupOrInsert ⟨[], [], 0, 0⟩ 7).1 7).1.holderCount.lookup
      (lookupOrInsert (lookupOrInsert ⟨[], [], 0, 0⟩ 7).1 7).2 = some 2 :=
  ⟨by decide,
    (identity_registry_second_sighting ⟨[], [], 0, 0⟩ 7 (by decide)).1,
    (identity_registry_second_sighting ⟨[], [], 0, 0⟩ 7 (by decide)).2.2.1,
    (identity_registry_second_sighting ⟨[], [], 0, 0⟩ 7 (by decide)).2.2.2.2⟩

/-! ### C3 / C7 — CallBinder declaration-order policy and BindError -/

lemma bindAux_some_first_viable (g : ConversionGraph) (args : List Value) :
    ∀ (cands : List Signature) (sig : Signature) (plans : List ConversionPlan),
      bindAux g args cands = some (sig, plans) →
        ∃ pre post, cands = pre ++ sig :: post ∧
          resolveAll g sig.params args = some plans ∧
          viable g sig args = true ∧
          ∀ c ∈ pre, viable g c args = false := by
  intro cands
  induction cands with
  | nil => intro sig plans h; simp [bindAux] at h
  | cons c cs ih =>
      intro sig plans h
      rw [bindAux] at h
      cases hr : resolveAll g c.params args with
      | some p =>
          rw [hr] at h
          simp only [Option.some.injEq, Prod.mk.injEq] at h
          obtain ⟨hc, hp⟩ := h
          subst hc; subst hp
          exact ⟨[], cs, rfl, hr, by simp [viable, hr], by simp⟩
      | none =>
          rw [hr] at h
          obtain ⟨pre, post, hcand, hres, hv, hpre⟩ := ih sig plans h
          refine ⟨c :: pre, post, by simp [hcand], hres, hv, ?_⟩
          intro c' hc'
          rcases List.mem_cons.mp hc' with h' | h'
          · subst h'; simp [viable, hr]
          · exact hpre c' h'

lemma bindAux_eq_none_iff (g : ConversionGraph) (args : List Value) :
    ∀ cands : List Signature,
      bindAux g args cands = none ↔ ∀ sig ∈ cands, viable g sig args = false := by
  intro cands
  induction cands with
  | nil => simp [bindAux]
  | cons c cs ih =>
      rw [bindAux]
      cases hr : resolveAll g c.params args with
      | some p => simp [viable, hr]
      | none =>
          simp only [ih, viable, hr]
          constructor
          · intro h sig hsig
            rcases List.mem_cons.mp hsig with h' | h'
            · subst h'; simp [hr]
            · exact h sig h'
          · intro h sig hsig
            exact h sig (List.mem_cons_of_mem c hsig)

/-- C3: `CallBinder.bind` returns the first candidate in declaration order for
which every parameter position resolves — every earlier candidate is
non-viable — and never a later candidate, even when it would be cheaper; in
particular, with overloads `f(Object)` then `f(MyObject1)` declared in that
order, a call with a `MyObject1` value binds to `f(Object)` (via the Upcast
edge) and not to the exact-match `f(MyObject1)`. -/
theorem callbinder_first_viable_in_declaration_order (g : ConversionGraph)
    (cands : List Signature) (args : List Value) (sig : Signature)
    (plans : List ConversionPlan) (hb : CallBinder.bind g cands args = .bound sig plans) :
    (∃ pre post, cands = pre ++ sig :: post ∧
      resolveAll g sig.params args = some plans ∧
      viable g sig args = true ∧
      ∀ c ∈ pre, viable g c args = false) ∧
    CallBinder.bind ex8Graph [⟨[.Object]⟩, ⟨[.MyObject1]⟩] [.myObject1 5] =
      .bound ⟨[.Object]⟩ [.viaEdge ⟨.MyObject1, .Object, .Upcast⟩] := by
  constructor
  · unfold CallBinder.bind at hb
    cases ha : bindAux g args cands with
    | none => rw [ha] at hb; exact absurd hb (by simp)
    | some sp =>
        rw [ha] at hb
        obtain ⟨s, p⟩ := sp
        simp only [BindResult.bound.injEq] at hb
        obtain ⟨hs, hp⟩ := hb
        subst hs; subst hp
        exact bindAux_some_first_viable g args cands s p ha
  · rfl

/-- Witness for C3: the two-overload scenario from the theorem's second
conjunct, fed back through the theorem's hypothesis. -/
theorem callbinder_first_viable_witness :
    ∃ pre post,
      ([⟨[.Object]⟩, ⟨[.MyObject1]⟩] : List Signature) =
        pre ++ (⟨[.Object]⟩ : Signature) :: post ∧
      resolveAll ex8Graph [.Object] [.myObject1 5] =
        some [.viaEdge ⟨.MyObject1, .Object, .Upcast⟩] ∧
      viable ex8Graph ⟨[.Object]⟩ [.myObject1 5] = true ∧
      ∀ c ∈ pre, viable ex8Graph c [.myObject1 5] = false :=
  (callbinder_first_viable_in_declaration_order ex8Graph
    [⟨[.Object]⟩, ⟨[.MyObject1]⟩] [.myObject1 5] ⟨[.Object]⟩
    [.viaEdge ⟨.MyObject1, .Object, .Upcast⟩] rfl).1

/-- C7: `CallBinder.bind` fails with a `BindError` listing the attempted
signatures if and only if no candidate is viable (some parameter position of
every candidate is a NoMatch); and a NoMatch on one candidate is recoverable —
the walk simply continues with the next candidate in declaration order. -/
theorem callbinder_binderror_iff_no_viable (g : ConversionGraph)
    (cands : List Signature) (args : List Value) :
    (CallBinder.bind g cands args = .bindError cands ↔
      ∀ sig ∈ cands, viable g sig args = false) ∧
    (∀ (c : Signature) (cs : List Signature), viable g c args = false →
      bindAux g args (c :: cs) = bindAux g args cs) := by
  constructor
  · unfold CallBinder.bind
    cases ha : bindAux g args cands with
    | none => simpa using (bindAux_eq_none_iff g args cands).mp ha
    | some sp =>
        constructor
        · intro h; exact absurd h (by simp)
        · intro h
          have : bindAux g args cands = none := (bindAux_eq_none_iff g args cands).mpr h
          rw [this] at ha
          exact absurd ha (by simp)
  · intro c cs hv
    rw [bindAux]
    have : resolveAll g c.params args = none := by
      unfold viable at hv
      exact Option.not_isSome_iff_eq_none.mp (by simp [hv])
    rw [this]

/-- Witness for C7: a single candidate requiring `std::string` is not viable
for a `MyObject1` argument, so bind reports a `BindError` listing it; and the
non-viable head candidate is skipped in favour of the tail. -/
theorem callbinder_binderror_witness :
    CallBinder.bind ex8Graph [⟨[.string]⟩] [.myObject1 3] = .bindError [⟨[.string]⟩] ∧
    bindAux ex8Graph [.myObject1 3] [⟨[.string]⟩, ⟨[.Object]⟩] =
      bindAux ex8Graph [.myObject1 3] [⟨[.Object]⟩] :=
  ⟨(callbinder_binderror_iff_no_viable ex8Graph [⟨[.string]⟩] [.myObject1 3]).1.mpr
      (by decide),
    (callbinder_binderror_iff_no_viable ex8Graph [⟨[.string]⟩, ⟨[.Object]⟩]
      [.myObject1 3]).2 ⟨[.string]⟩ [⟨[.Object]⟩] (by decide)⟩

/-! ### C4 / C5 / C6 / C8 — ConversionResolver -/

lemma mem_outgoing_iff (g : ConversionGraph) (src : CType) (e : ConversionEdge) :
    e ∈ outgoing g src ↔ e ∈ g.edges ∧ e.source = src := by
  unfold outgoing
  simp only [List.mem_append, List.mem_filter, Bool.and_eq_true, beq_iff_eq]
  constructor
  · rintro (⟨hm, hs, _⟩ | ⟨hm, hs, _⟩) <;> exact ⟨hm, hs⟩
  · rintro ⟨hm, hs⟩
    cases hk : e.kind with
    | Upcast => exact Or.inl ⟨hm, hs, rfl⟩
    | Declared => exact Or.inr ⟨hm, hs, rfl⟩

/-- C4: conversion resolution attempts exactly one edge traversal: for every
graph in which edges `rt → b` and `b → c` are registered but no direct
`rt → c` edge of either kind exists, resolving runtime type `rt` against
required type `c` is a NoMatch; in particular, in the `init_ex8` graph (where
`MyObject3 → MyObject2` and `MyObject2 → double` are registered) a `MyObject3`
value does not resolve to `double`. -/
theorem resolver_no_multihop (g : ConversionGraph) (rt b c : CType)
    (kb kc : EdgeKind)
    (hrb : ConversionEdge.mk rt b kb ∈ g.edges)
    (hbc : ConversionEdge.mk b c kc ∈ g.edges)
    (hnoU : ConversionEdge.mk rt c .Upcast ∉ g.edges)
    (hnoD : ConversionEdge.mk rt c .Declared ∉ g.edges)
    (hne : rt ≠ c) :
    resolve g rt c = none ∧ resolve ex8Graph .MyObject3 .double = none := by
  refine ⟨?_, by decide⟩
  unfold resolve
  rw [if_neg hne]
  have hfind : (outgoing g rt).find? (fun e => e.target == c) = none := by
    rw [List.find?_eq_none]
    intro e he
    have ⟨hmem, hsrc⟩ := (mem_outgoing_iff g rt e).mp he
    intro htgt
    have htgt' : e.target = c := by simpa using htgt
    have : e = ⟨rt, c, e.kind⟩ := by
      cases e; simp_all
    rw [this] at hmem
    cases hk : e.kind with
    | Upcast => rw [hk] at hmem; exact hnoU hmem
    | Declared => rw [hk] at hmem; exact hnoD hmem
  rw [hfind]
  rfl

/-- Witness for C4 in the `init_ex8` graph: `MyObject3 → MyObject2` and
`MyObject2 → double` are registered, there is no direct
`MyObject3 → double` edge, and resolution is a NoMatch. -/
theorem resolver_no_multihop_witness :
    (ConversionEdge.mk .MyObject3 .MyObject2 .Declared ∈ ex8Graph.edges ∧
      ConversionEdge.mk .MyObject2 .double .Declared ∈ ex8Graph.edges ∧
      ConversionEdge.mk .MyObject3 .double .Upcast ∉ ex8Graph.edges ∧
      ConversionEdge.mk .MyObject3 .double .Declared ∉ ex8Graph.edges) ∧
    resolve ex8Graph .MyObject3 .double = none :=
  ⟨⟨by decide, by decide, by decide, by decide⟩,
    (resolver_no_multihop ex8Graph .MyObject3 .MyObject2 .double .Declared .Declared
      (by decide) (by decide) (by decide) (by decide) (by decide)).1⟩

/-- C5: for every source type having both an Upcast edge and a Declared edge
to the same required type, resolution selects the Upcast edge (all Upcast
edges are walked before any Declared edge), with cost 0, and Upcast priority
P0 is strictly below Declared priority P1. -/
theorem resolver_upcast_beats_declared (g : ConversionGraph) (src tgt : CType)
    (hne : src ≠ tgt)
    (hup : ConversionEdge.mk src tgt .Upcast ∈ g.edges)
    (hdecl : ConversionEdge.mk src tgt .Declared ∈ g.edges) :
    resolve g src tgt = some (.viaEdge ⟨src, tgt, .Upcast⟩) ∧
    (ConversionPlan.viaEdge ⟨src, tgt, .Upcast⟩).cost = 0 ∧
    EdgeKind.Upcast.priority < EdgeKind.Declared.priority := by
  refine ⟨?_, rfl, by decide⟩
  unfold resolve
  rw [if_neg hne]
  unfold outgoing
  rw [List.find?_append]
  have hmemU : ConversionEdge.mk src tgt .Upcast ∈
      g.edges.filter (fun e => e.source == src && e.kind == EdgeKind.Upcast) := by
    rw [List.mem_filter]
    exact ⟨hup, by simp⟩
  cases hfU : (g.edges.filter
      (fun e => e.source == src && e.kind == EdgeKind.Upcast)).find?
        (fun e => e.target == tgt) with
  | none =>
      rw [List.find?_eq_none] at hfU
      exact absurd (by simp) (hfU _ hmemU)
  | some e =>
      have htgt : e.target = tgt := by simpa using List.find?_some hfU
      have hmem := List.mem_of_find?_eq_some hfU
      rw [List.mem_filter] at hmem
      obtain ⟨_, hprops⟩ := hmem
      simp only [Bool.and_eq_true, beq_iff_eq] at hprops
      obtain ⟨hsrc, hkind⟩ := hprops
      have he : e = ⟨src, tgt, .Upcast⟩ := by
        cases e; simp_all
      rw [he]
      rfl

/-- Witness for C5: a graph registering both the inheritance `Ex8_B : Ex8_A`
and a declared conversion `Ex8_B → Ex8_A` resolves `Ex8_B` against `Ex8_A`
through the Upcast edge at cost 0. -/
theorem resolver_upcast_beats_declared_witness :
    resolve
      (registerConversion (registerInheritance ⟨[]⟩ .Ex8_B .Ex8_A) .Ex8_B .Ex8_A)
      .Ex8_B .Ex8_A = some (.viaEdge ⟨.Ex8_B, .Ex8_A, .Upcast⟩) ∧
    (ConversionPlan.viaEdge ⟨.Ex8_B, .Ex8_A, .Upcast⟩).cost = 0 :=
  ⟨(resolver_upcast_beats_declared
      (registerConversion (registerInheritance ⟨[]⟩ .Ex8_B .Ex8_A) .Ex8_B .Ex8_A)
      .Ex8_B .Ex8_A (by decide) (by decide) (by decide)).1,
    (resolver_upcast_beats_declared
      (registerConversion (registerInheritance ⟨[]⟩ .Ex8_B .Ex8_A) .Ex8_B .Ex8_A)
      .Ex8_B .Ex8_A (by decide) (by decide) (by decide)).2.1⟩

/-- C6: for every value whose runtime type equals the required type, resolution
returns the identity plan with cost 0, and executing the plan performs no
value transformation — regardless of which conversion edges are registered. -/
theorem resolver_identity_on_exact_match (g : ConversionGraph) (v : Value)
    (req : CType) (h : runtimeTypeOf v = req) :
    resolve g (runtimeTypeOf v) req = some .identity ∧
    ConversionPlan.identity.cost = 0 ∧
    convert g v req = some v := by
  refine ⟨by simp [resolve, h], rfl, ?_⟩
  unfold convert
  rw [h]
  simp [resolve, applyPlan]

/-- Witness for C6: a `MyObject2` value against required type `MyObject2`
under the full `init_ex8` graph (which registers a `MyObject2 → double`
edge). -/
theorem resolver_identity_on_exact_match_witness :
    resolve ex8Graph (runtimeTypeOf (.myObject2 6)) .MyObject2 = some .identity ∧
    ConversionPlan.identity.cost = 0 ∧
    convert ex8Graph (.myObject2 6) .MyObject2 = some (.myObject2 6) :=
  resolver_identity_on_exact_match ex8Graph (.myObject2 6) .MyObject2 rfl

/-- A conversion graph with a genuine two-edge cycle: `MyObject2 → MyObject3`
and `MyObject3 → MyObject2`, both Declared. -/
def cycleGraph : ConversionGraph :=
  registerConversion (registerConversion ⟨[]⟩ .MyObject2 .MyObject3) .MyObject3 .MyObject2

/-- C8: resolution terminates on every input, cyclic graphs included: resolve
is a total function whose non-identity answers are always a single edge taken
directly from the registry (never a transitive closure), and on the concrete
cyclic graph each direction of the cycle resolves to its own single edge. -/
theorem resolver_terminates_on_cycles (g : ConversionGraph) (rt req : CType)
    (e : ConversionEdge) (h : resolve g rt req = some (.viaEdge e)) :
    (e ∈ g.edges ∧ e.source = rt ∧ e.target = req) ∧
    (ConversionEdge.mk .MyObject2 .MyObject3 .Declared ∈ cycleGraph.edges ∧
      ConversionEdge.mk .MyObject3 .MyObject2 .Declared ∈ cycleGraph.edges) ∧
    resolve cycleGraph .MyObject2 .MyObject3 =
      some (.viaEdge ⟨.MyObject2, .MyObject3, .Declared⟩) ∧
    resolve cycleGraph .MyObject3 .MyObject2 =
      some (.viaEdge ⟨.MyObject3, .MyObject2, .Declared⟩) := by
  refine ⟨?_, ⟨by decide, by decide⟩, by decide, by decide⟩
  unfold resolve at h
  by_cases hrt : rt = req
  · rw [if_pos hrt] at h
    exact absurd h (by simp)
  · rw [if_neg hrt] at h
    cases hf : (outgoing g rt).find? (fun e => e.target == req) with
    | none => rw [hf] at h; exact absurd h (by simp)
    | some e' =>
        rw [hf] at h
        simp only [Option.map_some', Option.some.injEq, ConversionPlan.viaEdge.injEq] at h
        subst h
        have htgt : e'.target = req := by simpa using List.find?_some hf
        have hmem := List.mem_of_find?_eq_some hf
        have := (mem_outgoing_iff g rt e').mp hmem
        exact ⟨this.1, this.2, htgt⟩

/-- Witness for C8 on the cyclic graph itself: the `MyObject2 → MyObject3`
direction resolves to that very edge, which is a registered single hop. -/
theorem resolver_terminates_on_cycles_witness :
    (ConversionEdge.mk .MyObject2 .MyObject3 .Declared ∈ cycleGraph.edges ∧
      ConversionEdge.mk .MyObject2 .MyObject3 .Declared ∈ cycleGraph.edges ∧
      CType.MyObject3 = CType.MyObject3) ∧
    resolve cycleGraph .MyObject2 .MyObject3 =
      some (.viaEdge ⟨.MyObject2, .MyObject3, .Declared⟩) :=
  ⟨⟨(resolver_terminates_on_cycles cycleGraph .MyObject2 .MyObject3
      ⟨.MyObject2, .MyObject3, .Declared⟩ (by decide)).1.1, by decide, rfl⟩,
    (resolver_terminates_on_cycles cycleGraph .MyObject2 .MyObject3
      ⟨.MyObject2, .MyObject3, .Declared⟩ (by decide)).2.2.1⟩

/-! ### C9 / C10 — the declared conversion operators of example8.cpp -/

/-- C9: the declared `MyObject2 → double` conversion is value-producing and
returns the square root of the stored integer: for every `MyObject2(v)` with
`v ≥ 0`, resolving against `double` selects the Declared edge and produces
`sqrt v`; in particular `MyObject2(6)` converts to `sqrt 6`, which is not 6
itself. -/
theorem myobject2_converts_to_sqrt (v : Int) (hv : 0 ≤ v) :
    MyObject2.toDouble v = Real.sqrt v ∧
    resolve ex8Graph .MyObject2 .double =
      some (.viaEdge ⟨.MyObject2, .double, .Declared⟩) ∧
    convert ex8Graph (.myObject2 v) .double = some (.dbl (Real.sqrt v)) ∧
    Real.sqrt 6 ≠ 6 := by
  have hres : resolve ex8Graph .MyObject2 .double =
      some (.viaEdge ⟨.MyObject2, .double, .Declared⟩) := by decide
  refine ⟨rfl, hres, ?_, ?_⟩
  · unfold convert
    show (resolve ex8Graph .MyObject2 .double).bind _ = _
    rw [hres]
    rfl
  · have h36 : Real.sqrt 36 = 6 := by
      rw [show (36 : ℝ) = 6 ^ 2 by norm_num]
      exact Real.sqrt_sq (by norm_num)
    have hlt : Real.sqrt 6 < 6 := by
      calc Real.sqrt 6 < Real.sqrt 36 := Real.sqrt_lt_sqrt (by norm_num) (by norm_num)
        _ = 6 := h36
    exact ne_of_lt hlt

/-- Witness for C9 at `MyObject2(6)`. -/
theorem myobject2_converts_to_sqrt_witness :
    (0 : Int) ≤ 6 ∧
    convert ex8Graph (.myObject2 6) .double = some (.dbl (Real.sqrt (6 : Int))) ∧
    Real.sqrt 6 ≠ 6 :=
  ⟨by decide, (myobject2_converts_to_sqrt 6 (by decide)).2.2.1,
    (myobject2_converts_to_sqrt 6 (by decide)).2.2.2⟩

/-- C10: the declared `Ex8_A → double` edge registered in `init_ex8`
dispatches on the value's most-derived runtime type: an `Ex8_A` or `Ex8_B`
instance converts to 42.0, an `Ex8_C` instance converts to 3.141592 (the
overriding virtual conversion, distinct from 42.0), and `Ex8_C` additionally
converts to the string "Pi" via its own declared edge. -/
theorem ex8_conversion_virtual_dispatch :
    applyConversion ⟨.Ex8_A, .double, .Declared⟩ .ex8A = some (.dbl 42.0) ∧
    applyConversion ⟨.Ex8_A, .double, .Declared⟩ .ex8B = some (.dbl 42.0) ∧
    applyConversion ⟨.Ex8_A, .double, .Declared⟩ .ex8C = some (.dbl 3.141592) ∧
    applyConversion ⟨.Ex8_C, .string, .Declared⟩ .ex8C = some (.str "Pi") ∧
    ConversionEdge.mk .Ex8_A .double .Declared ∈ ex8Graph.edges ∧
    ConversionEdge.mk .Ex8_C .string .Declared ∈ ex8Graph.edges ∧
    convert ex8Graph .ex8A .double = some (.dbl 42.0) ∧
    convert ex8Graph .ex8C .string = some (.str "Pi") ∧
    (3.141592 : ℝ) ≠ 42.0 := by
  have hresA : resolve ex8Graph .Ex8_A .double =
      some (.viaEdge ⟨.Ex8_A, .double, .Declared⟩) := by decide
  have hresC : resolve ex8Graph .Ex8_C .string =
      some (.viaEdge ⟨.Ex8_C, .string, .Declared⟩) := by decide
  refine ⟨rfl, rfl, rfl, rfl, by decide, by decide, ?_, ?_, by norm_num⟩
  · unfold convert
    show (resolve ex8Graph .Ex8_A .double).bind _ = _
    rw [hresA]
    rfl
  · unfold convert
    show (resolve ex8Graph .Ex8_C .string).bind _ = _
    rw [hresC]
    rfl
